import Mathlib

/-!
Shallow embedding of `src/tf_ddqn_cartpole.py`, a Double Deep Q-Network
cartpole trainer.  Machine floats are modelled by `ℚ`; numpy arrays by
functions `ℕ → α` written pointwise; the stateful `DDQNAgent` methods by
explicit state passing on `AgentState`.  The neural network is opaque to the
training logic: `predict` and `fit` are parameters of the definitions that
use them, exactly as the script treats the Keras model as a black box with
`predict`/`fit`/`get_weights`/`set_weights`.
-/

namespace TfDdqnCartpole

/-- Pointwise array write, modelling `arr[p] = v` on a numpy array viewed as
a function from indices to element values. -/
def writeAt {α : Type} (f : ℕ → α) (p : ℕ) (v : α) : ℕ → α :=
  fun j => if j = p then v else f j

/-- Implicit conversion of a Python bool into a cell of a float array
(`self.memory_buffer_done[...] = done`). -/
def boolToFloat (b : Bool) : ℚ := if b then 1 else 0

/-- Conversion `.astype(int)` on a float value: truncation toward zero. -/
def float_to_int (q : ℚ) : ℤ := if q < 0 then -⌊-q⌋ else ⌊q⌋

/-- Maximum of a per-action value row, modelling `np.max(..., axis=1)` on
one (nonempty) row of the prediction matrix. -/
def listMax : List ℚ → ℚ
  | [] => 0
  | x :: xs => xs.foldl max x

/-- First index attaining the maximum of a row, modelling `np.argmax`.  The
accumulator is (best index so far, next index, best value so far). -/
def np_argmax (l : List ℚ) : ℕ :=
  (l.foldl
    (fun (acc : ℕ × ℕ × ℚ) v =>
      if acc.2.2 < v then (acc.2.1, acc.2.1 + 1, v)
      else (acc.1, acc.2.1 + 1, acc.2.2))
    (0, 0, l.headD 0)).1

/-! Hyperparameters fixed in `DDQNAgent.__init__`. -/

/-- Learning rate `self.lr = 0.005` (unused by the replay/target logic). -/
def lr : ℚ := 5 / 1000

/-- Discount factor `self.gamma = 0.99`. -/
def gamma : ℚ := 99 / 100

/-- Soft-update rate `self.tau = 0.05`. -/
def tau : ℚ := 5 / 100

/-- Decay factor `self.epsilon_decay = 0.995`. -/
def epsilon_decay : ℚ := 995 / 1000

/-- Exploration floor `self.min_epsilon = 0.1`. -/
def min_epsilon : ℚ := 1 / 10

/-- Replay capacity `self.memory_buffer_size = int(1e5)`. -/
def memory_buffer_size : ℕ := 100000

/-- One environment transition as handed to `store_episode`. -/
structure Transition (S : Type) where
  current_state : S
  action : ℕ
  reward : ℚ
  next_state : S
  done : Bool

/-- The experience-replay fields of the agent: parallel arrays indexed by a
write pointer, plus the `buffer_full` flag.  The arrays are total functions;
a fresh buffer carries arbitrary contents, modelling `np.empty`. -/
structure BufferState (S : Type) where
  memory_buffer_size : ℕ
  memory_buffer_pointer : ℕ
  buffer_full : Bool
  memory_buffer_current_state : ℕ → S
  memory_buffer_next_state : ℕ → S
  memory_buffer_action : ℕ → ℚ
  memory_buffer_reward : ℕ → ℚ
  memory_buffer_done : ℕ → ℚ

/-- The array writes and pointer arithmetic of `DDQNAgent.store_episode`:
write every field at the pointer, advance it, and on reaching capacity reset
it to 0 and raise `buffer_full`. -/
def BufferState.store {S : Type} (b : BufferState S) (t : Transition S) :
    BufferState S :=
  let p := b.memory_buffer_pointer
  let b' : BufferState S :=
    { b with
      memory_buffer_current_state :=
        writeAt b.memory_buffer_current_state p t.current_state
      memory_buffer_next_state :=
        writeAt b.memory_buffer_next_state p t.next_state
      memory_buffer_action := writeAt b.memory_buffer_action p (t.action : ℚ)
      memory_buffer_reward := writeAt b.memory_buffer_reward p t.reward
      memory_buffer_done := writeAt b.memory_buffer_done p (boolToFloat t.done)
      memory_buffer_pointer := p + 1 }
  if b'.memory_buffer_size ≤ b'.memory_buffer_pointer then
    { b' with memory_buffer_pointer := 0, buffer_full := true }
  else b'

/-- Store a whole list of transitions in order. -/
def BufferState.storeList {S : Type} (b : BufferState S)
    (ts : List (Transition S)) : BufferState S :=
  ts.foldl BufferState.store b

/-- Size of the valid index range: `[0, pointer)` while not full, `[0, C)`
once full (spec §3, matching the pointer/flag discipline of the code). -/
def BufferState.validSize {S : Type} (b : BufferState S) : ℕ :=
  if b.buffer_full then b.memory_buffer_size else b.memory_buffer_pointer

/-- A freshly allocated buffer of capacity `C`; the initial array contents
are arbitrary parameters, modelling the unspecified contents of `np.empty`. -/
def freshBuffer {S : Type} (C : ℕ) (ics ins : ℕ → S) (ia ir idn : ℕ → ℚ) :
    BufferState S :=
  { memory_buffer_size := C
    memory_buffer_pointer := 0
    buffer_full := false
    memory_buffer_current_state := ics
    memory_buffer_next_state := ins
    memory_buffer_action := ia
    memory_buffer_reward := ir
    memory_buffer_done := idn }

/-- The mutable state of a `DDQNAgent`: exploration rate, replay buffer and
the two weight vectors (network parameters flattened to one list each). -/
structure AgentState (S : Type) where
  n_actions : ℕ
  epsilon : ℚ
  buffer : BufferState S
  q_model : List ℚ
  q_target_model : List ℚ

/-- `DDQNAgent.__init__`: epsilon starts at 1.0, the buffer is fresh with
capacity `memory_buffer_size`, and the two networks get their (externally
chosen) initial weights. -/
def DDQNAgent.init {S : Type} (action_size : ℕ) (w0 w0t : List ℚ)
    (ics ins : ℕ → S) (ia ir idn : ℕ → ℚ) : AgentState S :=
  { n_actions := action_size
    epsilon := 1
    buffer := freshBuffer memory_buffer_size ics ins ia ir idn
    q_model := w0
    q_target_model := w0t }

/-- `DDQNAgent.compute_action`: with `u` the draw of `np.random.uniform(0,1)`
and `randA` the draw of `np.random.choice(range(n_actions))`, return the
random action when `u < ε`, else the argmax of the online prediction.  The
method writes no agent state, so the returned state is the input state. -/
def compute_action {S : Type} (predict : List ℚ → S → List ℚ) (u : ℚ)
    (randA : ℕ) (a : AgentState S) (s : S) : ℕ × AgentState S :=
  (if u < a.epsilon then randA else np_argmax (predict a.q_model s), a)

/-- `DDQNAgent.store_episode`: delegate the transition to the buffer. -/
def store_episode {S : Type} (a : AgentState S) (cs : S) (act : ℕ) (r : ℚ)
    (ns : S) (d : Bool) : AgentState S :=
  { a with buffer := a.buffer.store ⟨cs, act, r, ns, d⟩ }

/-- `DDQNAgent.update_epsilon`: `ε ← max(decay · ε, ε_min)`. -/
def update_epsilon {S : Type} (a : AgentState S) : AgentState S :=
  { a with epsilon := max (epsilon_decay * a.epsilon) min_epsilon }

/-- The `buffer_end_ptr` computed at the top of `DDQNAgent.train`:
`min(pointer, size) if not full else size`. -/
def buffer_end_ptr {S : Type} (b : BufferState S) : ℕ :=
  if b.buffer_full then b.memory_buffer_size
  else min b.memory_buffer_pointer b.memory_buffer_size

/-- The sampled `batch_indices` of `train`: `np.random.choice(end_ptr, k)`
draws `k` values uniformly from `[0, end_ptr)`; the raw random stream
`draws` is reduced modulo `end_ptr`. -/
def train_indices {S : Type} (b : BufferState S) (draws : ℕ → ℕ)
    (batch_size : ℕ) : List ℕ :=
  (List.range batch_size).map fun j => draws j % buffer_end_ptr b

/-- The action recovered for a sampled row:
`self.memory_buffer_action[i].astype(int)`. -/
def train_row_action {S : Type} (b : BufferState S) (i : ℕ) : ℕ :=
  (float_to_int (b.memory_buffer_action i)).toNat

/-- The Bellman target of a sampled row: with `predT` the target network's
prediction function, `reward + gamma * (1 - done) * max(q_next_target)`. -/
def train_row_target {S : Type} (predT : S → List ℚ) (b : BufferState S)
    (i : ℕ) : ℚ :=
  b.memory_buffer_reward i +
    gamma * (1 - b.memory_buffer_done i) *
      listMax (predT (b.memory_buffer_next_state i))

/-- The regression-target matrix handed to `fit`: per sampled row, the
online prediction with the column of the stored action overwritten by the
row's Bellman target (`q_current_states[arange, actions] = bellman`). -/
def train_fit_targets {S : Type} (pred predT : S → List ℚ)
    (b : BufferState S) (idxs : List ℕ) : List (List ℚ) :=
  idxs.map fun i =>
    (pred (b.memory_buffer_current_state i)).set (train_row_action b i)
      (train_row_target predT b i)

/-- `DDQNAgent.train`: sample indices, build the masked regression targets,
and fit the online network on them.  `fitW` is the opaque gradient step of
`self.q_model.fit`, mapping old weights, states and targets to new weights;
only `q_model` is reassigned. -/
def train {S : Type} (predict : List ℚ → S → List ℚ)
    (fitW : List ℚ → List S → List (List ℚ) → List ℚ)
    (draws : ℕ → ℕ) (batch_size : ℕ) (a : AgentState S) : AgentState S :=
  let idxs := train_indices a.buffer draws batch_size
  let states := idxs.map a.buffer.memory_buffer_current_state
  let targets :=
    train_fit_targets (predict a.q_model) (predict a.q_target_model)
      a.buffer idxs
  { a with q_model := fitW a.q_model states targets }

/-- `DDQNAgent.update_q_target_network`: the target weights become the
elementwise combination `w_main * tau + w_target * (1 - tau)`. -/
def update_q_target_network {S : Type} (a : AgentState S) : AgentState S :=
  let combined_weights :=
    List.zipWith (fun w_main w_target => w_main * tau + w_target * (1 - tau))
      a.q_model a.q_target_model
  { a with q_target_model := combined_weights }

/-- `DDQNAgent.save_model_weights`: persist the online weights; the agent
state is untouched and the artifact is the online weight list. -/
def save_model_weights {S : Type} (a : AgentState S) : AgentState S × List ℚ :=
  (a, a.q_model)

/-- `DDQNAgent.load_model_weights`: load the persisted weights `w` into the
online network and into the target network. -/
def load_model_weights {S : Type} (w : List ℚ) (a : AgentState S) :
    AgentState S :=
  { a with q_model := w, q_target_model := w }

/-- The agent built by `run_sim_routine`: a fresh `DDQNAgent` (so with
`epsilon = 1.0`) into which the persisted weights `w` are loaded. -/
def run_sim_agent {S : Type} (w : List ℚ) (action_size : ℕ) (w0 w0t : List ℚ)
    (ics ins : ℕ → S) (ia ir idn : ℕ → ℚ) : AgentState S :=
  load_model_weights w (DDQNAgent.init action_size w0 w0t ics ins ia ir idn)

/-- The slot `j` of the buffer holds exactly the transition `t`, field by
field, with the action and done flag in their float encodings. -/
def slotEncodes {S : Type} (b : BufferState S) (j : ℕ) (t : Transition S) :
    Prop :=
  b.memory_buffer_current_state j = t.current_state ∧
  b.memory_buffer_next_state j = t.next_state ∧
  b.memory_buffer_action j = (t.action : ℚ) ∧
  b.memory_buffer_reward j = t.reward ∧
  b.memory_buffer_done j = boolToFloat t.done

/-! Model of `run_training_routine`.  The hard-coded constants of the
function body become a configuration record; the gym environment is a
deterministic machine over a state type `E`; the pseudo-random draws and
the opaque Keras predict/fit calls are oracle functions.  Ghost fields
(`stores`, `train_log`, `success_history`, `saves`) record, without
influencing control flow, how many transitions have been stored, the store
count at the moment of each `train` call, the running success count after
each episode, and the number of `save_model_weights` calls. -/

/-- The constants fixed at the top of `run_training_routine`. -/
structure TrainConfig where
  success_threshold : ℚ
  successfull_episodes_threshold : ℕ
  n_episodes : ℕ
  max_iterations_ep : ℕ
  batch_size : ℕ
  q_network_update_freq : ℕ

/-- The values the script hard-codes: 180, 20, 75, 400, 256, 4. -/
def defaultConfig : TrainConfig :=
  { success_threshold := 180
    successfull_episodes_threshold := 20
    n_episodes := 75
    max_iterations_ep := 400
    batch_size := 256
    q_network_update_freq := 4 }

/-- Deterministic model of the gym environment: `reset` yields the initial
observation of an episode, `step` consumes an action. -/
structure EnvModel (S E : Type) where
  reset : E → S × E
  step : E → ℕ → S × ℚ × Bool × E

/-- Oracles for the sources of randomness and the opaque network calls:
`uniform t` and `randAction t` are the `np.random` draws of
`compute_action` at global step `t`; `draws t j` is the `j`-th raw draw of
`np.random.choice` inside the `train` call at global step `t`; `predict`
and `fitW` are the Keras model calls. -/
structure Oracles (S : Type) where
  uniform : ℕ → ℚ
  randAction : ℕ → ℕ
  draws : ℕ → ℕ → ℕ
  predict : List ℚ → S → List ℚ
  fitW : List ℚ → List S → List (List ℚ) → List ℚ

/-- The running state of `run_training_routine` between steps. -/
structure RunState (S E : Type) where
  agent : AgentState S
  env : E
  total_steps : ℕ
  stores : ℕ
  train_log : List ℕ
  successfull_episodes : ℕ
  success_history : List ℕ
  reward_history : List ℚ
  saves : ℕ

/-- The body of one iteration of the inner
`for step in range(max_iterations_ep)` loop: increment the step counter,
choose an action, step the environment, accumulate the reward, store the
transition, possibly run the gated train/target-update/epsilon-decay
block, and on `done` count the episode as successful when its reward meets
the threshold.  Returns the updated run state, the next current state, the
accumulated episode reward, and the `done` flag. -/
def step_once {S E : Type} (cfg : TrainConfig) (env : EnvModel S E)
    (o : Oracles S) (s : S) (rw : ℚ) (st : RunState S E) :
    RunState S E × S × ℚ × Bool :=
  let t := st.total_steps + 1
  let a := (compute_action o.predict (o.uniform t) (o.randAction t)
    st.agent s).1
  let out := env.step st.env a
  let s' := out.1
  let r := out.2.1
  let d := out.2.2.1
  let e' := out.2.2.2
  let rw' := rw + r
  let ag1 := store_episode st.agent s a r s' d
  let st1 := { st with
    agent := ag1, env := e', total_steps := t, stores := st.stores + 1 }
  let st2 :=
    if cfg.batch_size ≤ t ∧ t % cfg.q_network_update_freq = 0 then
      { st1 with
        agent := update_epsilon (update_q_target_network
          (train o.predict o.fitW (o.draws t) cfg.batch_size st1.agent))
        train_log := st1.train_log ++ [st1.stores] }
    else st1
  if d then
    let st3 :=
      if cfg.success_threshold ≤ rw' then
        { st2 with successfull_episodes := st2.successfull_episodes + 1 }
      else st2
    (st3, s', rw', true)
  else (st2, s', rw', false)

/-- The inner `for step in range(max_iterations_ep)` loop: one call handles
one step; `fuel` is the number of remaining iterations, `s` the current
state, `rw` the reward accumulated in this episode.  Returns the updated
run state, the episode's cumulative reward, and whether the episode ended
via `done`; `current_state = next_state` threads the environment state into
the next iteration. -/
def run_steps {S E : Type} (cfg : TrainConfig) (env : EnvModel S E)
    (o : Oracles S) : ℕ → S → ℚ → RunState S E → RunState S E × ℚ × Bool
  | 0, _, rw, st => (st, rw, false)
  | fuel + 1, s, rw, st =>
    let r := step_once cfg env o s rw st
    if r.2.2.2 then (r.1, r.2.2.1, true)
    else run_steps cfg env o fuel r.2.1 r.2.2.1 r.1

/-- The body of one iteration of the outer
`for episode in range(n_episodes)` loop: reset the environment, run the
inner step loop, and append the episode's cumulative reward to the reward
history (and, as ghost data, the running success count to
`success_history`). -/
def episode_once {S E : Type} (cfg : TrainConfig) (env : EnvModel S E)
    (o : Oracles S) (st : RunState S E) : RunState S E :=
  let r0 := env.reset st.env
  let st0 := { st with env := r0.2 }
  let out := run_steps cfg env o cfg.max_iterations_ep r0.1 0 st0
  let st1 := out.1
  let rw := out.2.1
  { st1 with
    reward_history := st1.reward_history ++ [rw]
    success_history := st1.success_history ++ [st1.successfull_episodes] }

/-- The outer `for episode in range(n_episodes)` loop: run one episode,
then return early (saving the weights) once the success count reaches the
threshold; when the episode budget is exhausted the weights are saved as
well. -/
def run_episodes {S E : Type} (cfg : TrainConfig) (env : EnvModel S E)
    (o : Oracles S) : ℕ → RunState S E → RunState S E
  | 0, st => { st with saves := st.saves + 1 }
  | fuel + 1, st =>
    let st2 := episode_once cfg env o st
    if cfg.successfull_episodes_threshold ≤ st2.successfull_episodes then
      { st2 with saves := st2.saves + 1 }
    else run_episodes cfg env o fuel st2

/-- `run_training_routine`: fresh agent, zeroed counters, then the episode
loop.  The result carries the reward history the function returns, plus the
ghost instrumentation. -/
def run_training_routine {S E : Type} (cfg : TrainConfig)
    (env : EnvModel S E) (o : Oracles S) (e0 : E) (ag0 : AgentState S) :
    RunState S E :=
  run_episodes cfg env o cfg.n_episodes
    { agent := ag0
      env := e0
      total_steps := 0
      stores := 0
      train_log := []
      successfull_episodes := 0
      success_history := []
      reward_history := []
      saves := 0 }

/-! Concrete fixtures used to instantiate the theorems below on explicit
inputs. -/

/-- A tiny concrete agent over scalar states: two actions, online weights
`[1]`, target weights `[3]`, zeroed initial buffer contents. -/
def testAgent : AgentState ℚ :=
  DDQNAgent.init 2 [1] [3] (fun _ => 0) (fun _ => 0) (fun _ => 0) (fun _ => 0)
    (fun _ => 0)

/-- Three concrete transitions over scalar states. -/
def witnessTransitions : List (Transition ℚ) :=
  [⟨0, 0, 10, 1, false⟩, ⟨1, 1, 20, 2, false⟩, ⟨2, 0, 30, 3, true⟩]

/-- An environment whose every step yields reward 1000 and `done = true`. -/
def scenarioEnv : EnvModel Unit Unit :=
  { reset := fun _ => ((), ()), step := fun _ _ => ((), 1000, true, ()) }

/-- Trivial oracles: zero random draws, constant predictions, a `fit` that
keeps the weights. -/
def scenarioOracles : Oracles Unit :=
  { uniform := fun _ => 0
    randAction := fun _ => 0
    draws := fun _ _ => 0
    predict := fun _ _ => [0, 0]
    fitW := fun w _ _ => w }

/-- A fresh agent over `Unit` states with empty weight lists. -/
def scenarioAgent : AgentState Unit :=
  DDQNAgent.init 2 [] [] (fun _ => ()) (fun _ => ()) (fun _ => 0) (fun _ => 0)
    (fun _ => 0)

/-- The script's configuration with the success-count threshold set to 1,
as in the end-to-end scenario of the spec. -/
def scenarioConfig : TrainConfig :=
  { defaultConfig with successfull_episodes_threshold := 1 }

/-- An environment whose every step yields reward 1 and `done = false`, so
episodes only ever end by hitting the per-episode step cap. -/
def capEnv : EnvModel Unit Unit :=
  { reset := fun _ => ((), ()), step := fun _ _ => ((), 1, false, ()) }

/-- A configuration with success threshold 1, success-count threshold 1,
two episodes of one step each, and a batch size large enough that no
training step ever fires. -/
def capConfig : TrainConfig :=
  { success_threshold := 1
    successfull_episodes_threshold := 1
    n_episodes := 2
    max_iterations_ep := 1
    batch_size := 100
    q_network_update_freq := 4 }

/-- A tiny concrete buffer over scalar states whose action array holds the
constant float 1. -/
def maskBuffer : BufferState ℚ :=
  freshBuffer 3 (fun _ => 0) (fun _ => 0) (fun _ => 1) (fun _ => 0)
    (fun _ => 0)

/-- A configuration whose single one-step episode fires a training step
immediately (batch size 1, update frequency 1). -/
def gateConfig : TrainConfig :=
  { success_threshold := 0
    successfull_episodes_threshold := 0
    n_episodes := 1
    max_iterations_ep := 1
    batch_size := 1
    q_network_update_freq := 1 }

/-! Helper lemmas. -/

lemma writeAt_same {α : Type} (f : ℕ → α) (p : ℕ) (v : α) :
    writeAt f p v p = v := by
  simp [writeAt]

lemma writeAt_other {α : Type} (f : ℕ → α) (p j : ℕ) (v : α) (h : j ≠ p) :
    writeAt f p v j = f j := by
  simp [writeAt, h]

lemma succ_mod_of_succ_lt {k C : ℕ} (h : k % C + 1 < C) :
    (k + 1) % C = k % C + 1 := by
  conv_lhs => rw [← Nat.div_add_mod k C]
  rw [Nat.add_assoc, Nat.mul_add_mod]
  exact Nat.mod_eq_of_lt h

lemma succ_mod_of_succ_eq {k C : ℕ} (h : k % C + 1 = C) : (k + 1) % C = 0 := by
  conv_lhs => rw [← Nat.div_add_mod k C]
  rw [Nat.add_assoc, Nat.mul_add_mod, h]
  exact Nat.mod_self C

lemma store_size {S : Type} (b : BufferState S) (t : Transition S) :
    (b.store t).memory_buffer_size = b.memory_buffer_size := by
  simp only [BufferState.store]
  split <;> rfl

lemma store_encodes_at {S : Type} (b : BufferState S) (t : Transition S) :
    slotEncodes (b.store t) b.memory_buffer_pointer t := by
  simp only [BufferState.store, slotEncodes]
  split <;> simp [writeAt]

lemma store_other {S : Type} (b : BufferState S) (t : Transition S) (j : ℕ)
    (h : j ≠ b.memory_buffer_pointer) :
    (b.store t).memory_buffer_current_state j =
        b.memory_buffer_current_state j ∧
      (b.store t).memory_buffer_next_state j = b.memory_buffer_next_state j ∧
      (b.store t).memory_buffer_action j = b.memory_buffer_action j ∧
      (b.store t).memory_buffer_reward j = b.memory_buffer_reward j ∧
      (b.store t).memory_buffer_done j = b.memory_buffer_done j := by
  simp only [BufferState.store]
  split <;> simp [writeAt, h]

lemma store_pointer_full {S : Type} (b : BufferState S) (t : Transition S)
    {C k : ℕ} (hC : 0 < C) (hs : b.memory_buffer_size = C)
    (hp : b.memory_buffer_pointer = k % C)
    (hf : b.buffer_full = decide (C ≤ k)) :
    (b.store t).memory_buffer_size = C ∧
      (b.store t).memory_buffer_pointer = (k + 1) % C ∧
      (b.store t).buffer_full = decide (C ≤ k + 1) := by
  have hmod : k % C < C := Nat.mod_lt _ hC
  simp only [BufferState.store, hs, hp]
  by_cases hcase : C ≤ k % C + 1
  · rw [if_pos hcase]
    have heq : k % C + 1 = C := le_antisymm hmod hcase
    have hk1 : C ≤ k + 1 := by
      have := Nat.mod_le k C
      omega
    refine ⟨rfl, ?_, by simp [hk1]⟩
    rw [succ_mod_of_succ_eq heq]
  · rw [if_neg hcase]
    have hlt : k % C + 1 < C := by omega
    have hiff : (C ≤ k) ↔ (C ≤ k + 1) := by
      constructor
      · omega
      · intro h1
        by_contra h2
        have hklt : k < C := by omega
        rw [Nat.mod_eq_of_lt hklt] at hlt
        omega
    refine ⟨rfl, ?_, by rw [hf]; exact decide_eq_decide.mpr hiff⟩
    rw [succ_mod_of_succ_lt hlt]

lemma storeList_append_one {S : Type} (b : BufferState S)
    (ts : List (Transition S)) (t : Transition S) :
    b.storeList (ts ++ [t]) = (b.storeList ts).store t := by
  simp [BufferState.storeList, List.foldl_append]

lemma storeList_pointer_full {S : Type} {C : ℕ} (hC : 0 < C)
    (ics ins : ℕ → S) (ia ir idn : ℕ → ℚ) (ts : List (Transition S)) :
    ((freshBuffer C ics ins ia ir idn).storeList ts).memory_buffer_size = C ∧
      ((freshBuffer C ics ins ia ir idn).storeList ts).memory_buffer_pointer =
        ts.length % C ∧
      ((freshBuffer C ics ins ia ir idn).storeList ts).buffer_full =
        decide (C ≤ ts.length) := by
  induction ts using List.reverseRecOn with
  | nil =>
    refine ⟨rfl, by simp [BufferState.storeList, freshBuffer], ?_⟩
    have : ¬ C ≤ 0 := by omega
    simp [BufferState.storeList, freshBuffer, this]
  | append_singleton ts t ih =>
    rw [storeList_append_one]
    have h := store_pointer_full ((freshBuffer C ics ins ia ir idn).storeList
      ts) t hC ih.1 ih.2.1 ih.2.2
    simpa using h

lemma storeList_slot {S : Type} {C : ℕ} (hC : 0 < C) (ics ins : ℕ → S)
    (ia ir idn : ℕ → ℚ) (ts : List (Transition S)) :
    ∀ (i : ℕ) (tr : Transition S), ts[i]? = some tr →
      (∀ i', i < i' → i' < ts.length → i' % C ≠ i % C) →
      slotEncodes ((freshBuffer C ics ins ia ir idn).storeList ts) (i % C)
        tr := by
  induction ts using List.reverseRecOn with
  | nil => intro i tr h; simp at h
  | append_singleton ts t ih =>
    intro i tr hget hlast
    rw [storeList_append_one]
    by_cases hcase : i < ts.length
    · have hne : ts.length % C ≠ i % C :=
        hlast ts.length hcase (by simp)
      have hptr := (storeList_pointer_full hC ics ins ia ir idn ts).2.1
      have hoth := store_other ((freshBuffer C ics ins ia ir idn).storeList
        ts) t (i % C) (by rw [hptr]; exact hne.symm)
      rw [List.getElem?_append, if_pos hcase] at hget
      have hrec := ih i tr hget
        (fun i' h1 h2 => hlast i' h1 (by simp; omega))
      exact ⟨hoth.1.trans hrec.1, hoth.2.1.trans hrec.2.1,
        hoth.2.2.1.trans hrec.2.2.1, hoth.2.2.2.1.trans hrec.2.2.2.1,
        hoth.2.2.2.2.trans hrec.2.2.2.2⟩
    · have hi : i < ts.length + 1 := by
        have := (List.getElem?_eq_some.mp hget).1
        simpa using this
      have hieq : i = ts.length := by omega
      subst hieq
      rw [List.getElem?_append, if_neg (by omega)] at hget
      simp at hget
      subst hget
      have hptr := (storeList_pointer_full hC ics ins ia ir idn ts).2.1
      have := store_encodes_at ((freshBuffer C ics ins ia ir idn).storeList
        ts) t
      rwa [hptr] at this

/-- Claim C3: for every sequence of stores into a fresh buffer of capacity
`C > 0`, (a) after `n ≤ C` stores the valid range has exactly `n` entries;
(b) after `n < C` stores the full flag is still down and the pointer is
`n`; (c) after exactly `C` stores the full flag is up and the valid range
is exactly `C`; (d) after any `n ≥ C` stores the buffer holds exactly the
last `C` transitions stored, in circular order, transition `i` living at
slot `i % C` (in particular the `(C+1)`-th store overwrites the slot of the
transition at logical index 0). -/
theorem replay_buffer_circular {S : Type} {C : ℕ} (hC : 0 < C)
    (ics ins : ℕ → S) (ia ir idn : ℕ → ℚ) (ts : List (Transition S)) :
    (ts.length ≤ C →
      ((freshBuffer C ics ins ia ir idn).storeList ts).validSize =
        ts.length) ∧
    (ts.length < C →
      ((freshBuffer C ics ins ia ir idn).storeList ts).buffer_full = false ∧
      ((freshBuffer C ics ins ia ir idn).storeList
        ts).memory_buffer_pointer = ts.length) ∧
    (ts.length = C →
      ((freshBuffer C ics ins ia ir idn).storeList ts).buffer_full = true ∧
      ((freshBuffer C ics ins ia ir idn).storeList ts).validSize = C) ∧
    (C ≤ ts.length →
      ∀ (i : ℕ) (tr : Transition S), ts.length - C ≤ i → ts[i]? = some tr →
        slotEncodes ((freshBuffer C ics ins ia ir idn).storeList ts) (i % C)
          tr) := by
  obtain ⟨hsize, hptr, hfull⟩ := storeList_pointer_full hC ics ins ia ir idn ts
  refine ⟨?_, ?_, ?_, ?_⟩
  · intro hle
    by_cases hlt : ts.length < C
    · have : ¬ C ≤ ts.length := by omega
      simp [BufferState.validSize, hfull, this, hptr, Nat.mod_eq_of_lt hlt]
    · have heq : ts.length = C := by omega
      simp [BufferState.validSize, hfull, heq, hsize]
  · intro hlt
    have : ¬ C ≤ ts.length := by omega
    refine ⟨by simp [hfull, this], ?_⟩
    rw [hptr, Nat.mod_eq_of_lt hlt]
  · intro heq
    refine ⟨by simp [hfull, heq], ?_⟩
    simp [BufferState.validSize, hfull, heq, hsize]
  · intro hge i tr hwin hget
    have hil : i < ts.length := (List.getElem?_eq_some.mp hget).1
    refine storeList_slot hC ics ins ia ir idn ts i tr hget ?_
    intro i' h1 h2 heqmod
    have hdvd : C ∣ i' - i := (Nat.modEq_iff_dvd' (le_of_lt h1)).mp heqmod.symm
    have hpos : 0 < i' - i := by omega
    have hle := Nat.le_of_dvd hpos hdvd
    omega

/-- Witness for C3: capacity 2, three stored transitions; the theorem is
applied to show that transition 2 (the third) lives at slot `2 % 2 = 0`,
overwriting the transition first stored there. -/
theorem replay_buffer_circular_witness :
    (0 < 2 ∧ (2:ℕ) ≤ witnessTransitions.length ∧
      witnessTransitions.length - 2 ≤ 2 ∧
      witnessTransitions[2]? = some ⟨2, 0, 30, 3, true⟩) ∧
    slotEncodes ((freshBuffer 2 (fun _ => (0:ℚ)) (fun _ => 0) (fun _ => 0)
        (fun _ => 0) (fun _ => 0)).storeList witnessTransitions) (2 % 2)
      ⟨2, 0, 30, 3, true⟩ :=
  ⟨⟨by decide, by decide, by decide, rfl⟩,
    (replay_buffer_circular (by decide) (fun _ => (0:ℚ)) (fun _ => 0)
      (fun _ => 0) (fun _ => 0) (fun _ => 0) witnessTransitions).2.2.2
      (by decide) 2 ⟨2, 0, 30, 3, true⟩ (by decide) rfl⟩

lemma iterate_update_epsilon_ge {S : Type} (a : AgentState S)
    (h : min_epsilon ≤ a.epsilon) (k : ℕ) :
    min_epsilon ≤ (update_epsilon^[k] a).epsilon := by
  induction k with
  | zero => simpa using h
  | succ n ih =>
    rw [Function.iterate_succ_apply']
    exact le_max_right _ _

/-- Claim C8: starting from any ε ≥ ε_min, successive `update_epsilon`
calls produce a non-increasing sequence of ε values bounded below by ε_min,
each step computing `ε ← max(decay · ε, ε_min)`; the agent's decay 0.995
satisfies `0 < decay ≤ 1`. -/
theorem epsilon_sequence_monotone {S : Type} (a : AgentState S)
    (h : min_epsilon ≤ a.epsilon) (k : ℕ) :
    (update_epsilon^[k + 1] a).epsilon ≤ (update_epsilon^[k] a).epsilon ∧
      min_epsilon ≤ (update_epsilon^[k] a).epsilon ∧
      (update_epsilon^[k + 1] a).epsilon =
        max (epsilon_decay * (update_epsilon^[k] a).epsilon) min_epsilon := by
  have hk := iterate_update_epsilon_ge a h k
  refine ⟨?_, hk, ?_⟩
  · rw [Function.iterate_succ_apply']
    apply max_le
    · have h0 : (0:ℚ) ≤ (update_epsilon^[k] a).epsilon := by
        have hm : (0:ℚ) ≤ min_epsilon := by norm_num [min_epsilon]
        linarith
      have hd : epsilon_decay ≤ 1 := by norm_num [epsilon_decay]
      nlinarith
    · exact hk
  · rw [Function.iterate_succ_apply']
    rfl

/-- Witness for C8 at the concrete test agent (ε = 1), k = 0. -/
theorem epsilon_sequence_monotone_witness :
    min_epsilon ≤ testAgent.epsilon ∧
      (update_epsilon^[1] testAgent).epsilon ≤
        (update_epsilon^[0] testAgent).epsilon :=
  ⟨by norm_num [min_epsilon, testAgent, DDQNAgent.init],
    (epsilon_sequence_monotone testAgent
      (by norm_num [min_epsilon, testAgent, DDQNAgent.init]) 0).1⟩

lemma zipWith_getD (f : ℚ → ℚ → ℚ) :
    ∀ (l1 l2 : List ℚ) (i : ℕ), i < l1.length → i < l2.length →
      (List.zipWith f l1 l2).getD i 0 = f (l1.getD i 0) (l2.getD i 0) := by
  intro l1
  induction l1 with
  | nil => intro l2 i h; simp at h
  | cons x xs ih =>
    intro l2 i h1 h2
    cases l2 with
    | nil => simp at h2
    | cons y ys =>
      cases i with
      | zero => simp [List.getD]
      | succ n =>
        have h1' : n < xs.length := by simpa using h1
        have h2' : n < ys.length := by simpa using h2
        simpa [List.getD] using ih ys n h1' h2'

lemma update_target_length {S : Type} (a : AgentState S)
    (h : a.q_model.length = a.q_target_model.length) :
    (update_q_target_network a).q_target_model.length =
      a.q_target_model.length := by
  simp [update_q_target_network, h]

lemma iterate_update_target_inv {S : Type} (a : AgentState S)
    (h : a.q_model.length = a.q_target_model.length) (k : ℕ) :
    (update_q_target_network^[k] a).q_model = a.q_model ∧
      (update_q_target_network^[k] a).q_target_model.length =
        a.q_target_model.length := by
  induction k with
  | zero => exact ⟨rfl, rfl⟩
  | succ n ih =>
    rw [Function.iterate_succ_apply']
    refine ⟨ih.1, ?_⟩
    have hlen : (update_q_target_network^[n] a).q_model.length =
        (update_q_target_network^[n] a).q_target_model.length := by
      rw [ih.1, ih.2, h]
    rw [update_target_length _ hlen, ih.2]

/-- Claim C7: `update_q_target_network` sets each target weight to
`τ · θ + (1-τ) · θ⁻` elementwise (the code writes `w_main*τ +
w_target*(1-τ)`), and with the online weights held constant, `k` calls
scale the elementwise difference between target and online weights by
`(1-τ)^k`. -/
theorem soft_update_geometric {S : Type} (a : AgentState S)
    (h : a.q_model.length = a.q_target_model.length) :
    (∀ i, i < a.q_model.length →
      (update_q_target_network a).q_target_model.getD i 0 =
        tau * a.q_model.getD i 0 + (1 - tau) * a.q_target_model.getD i 0) ∧
    ∀ k i, i < a.q_model.length →
      (update_q_target_network^[k] a).q_target_model.getD i 0 -
          a.q_model.getD i 0 =
        (1 - tau) ^ k *
          (a.q_target_model.getD i 0 - a.q_model.getD i 0) := by
  constructor
  · intro i hi
    have hz := zipWith_getD (fun wm wt => wm * tau + wt * (1 - tau))
      a.q_model a.q_target_model i hi (h ▸ hi)
    simp only [update_q_target_network]
    rw [hz]
    ring
  · intro k
    induction k with
    | zero =>
      intro i hi
      simp [Function.iterate_zero_apply]
    | succ n ih =>
      intro i hi
      have hinv := iterate_update_target_inv a h n
      rw [Function.iterate_succ_apply']
      have hi1 : i < (update_q_target_network^[n] a).q_model.length := by
        rw [hinv.1]; exact hi
      have hi2 : i < (update_q_target_network^[n] a).q_target_model.length := by
        rw [hinv.2, ← h]; exact hi
      have hz := zipWith_getD (fun wm wt => wm * tau + wt * (1 - tau))
        (update_q_target_network^[n] a).q_model
        (update_q_target_network^[n] a).q_target_model i hi1 hi2
      simp only [update_q_target_network]
      rw [hz, hinv.1]
      have hrec := ih i hi
      linear_combination (1 - tau) * hrec

/-- Witness for C7 at the concrete test agent (`θ = [1]`, `θ⁻ = [3]`),
two soft updates. -/
theorem soft_update_geometric_witness :
    testAgent.q_model.length = testAgent.q_target_model.length ∧
      (update_q_target_network^[2] testAgent).q_target_model.getD 0 0 -
          testAgent.q_model.getD 0 0 =
        (1 - tau) ^ 2 *
          (testAgent.q_target_model.getD 0 0 - testAgent.q_model.getD 0 0) :=
  ⟨by decide, (soft_update_geometric testAgent (by decide)).2 2 0 (by decide)⟩

/-- Claim C5: the Bellman target computed by `train` for a sampled slot
holding a stored transition equals
`reward + γ · (1 - done) · max(target prediction at next_state)`, and for
a transition stored with `done = true` it equals exactly the reward,
whatever the target network predicts. -/
theorem bellman_target_terminal {S : Type} (a : AgentState S) (cs ns : S)
    (act : ℕ) (r : ℚ) (d : Bool) (predT : S → List ℚ) :
    train_row_target predT (store_episode a cs act r ns d).buffer
        a.buffer.memory_buffer_pointer =
      r + gamma * (1 - boolToFloat d) * listMax (predT ns) ∧
    (d = true →
      train_row_target predT (store_episode a cs act r ns d).buffer
        a.buffer.memory_buffer_pointer = r) := by
  have henc := store_encodes_at a.buffer ⟨cs, act, r, ns, d⟩
  have h1 : train_row_target predT (store_episode a cs act r ns d).buffer
      a.buffer.memory_buffer_pointer =
      r + gamma * (1 - boolToFloat d) * listMax (predT ns) := by
    simp only [train_row_target, store_episode]
    rw [henc.2.2.2.1, henc.2.1, henc.2.2.2.2]
  refine ⟨h1, ?_⟩
  intro hd
  rw [h1, hd]
  simp [boolToFloat]

/-- Witness for C5: a terminal transition with reward 3; the Bellman
target ignores the target network's row `[5, 7]`. -/
theorem bellman_target_terminal_witness :
    (true = true) ∧
      train_row_target (fun _ => [5, 7])
        (store_episode testAgent 0 1 3 2 true).buffer
        testAgent.buffer.memory_buffer_pointer = 3 :=
  ⟨rfl,
    (bellman_target_terminal testAgent 0 2 1 3 true (fun _ => [5, 7])).2 rfl⟩

lemma float_to_int_natCast (n : ℕ) : float_to_int (n : ℚ) = n := by
  unfold float_to_int
  rw [if_neg (not_lt.mpr (by positivity)), Int.floor_natCast]

/-- Claim C10: a transition stored with an integer action `a < n_actions`
and boolean done flag round-trips exactly through the float buffer: the
stored action cell holds exactly `a`, `train`'s int cast recovers exactly
`a`, and the done cell holds exactly 1 for true and 0 for false. -/
theorem action_done_roundtrip {S : Type} (a : AgentState S) (cs ns : S)
    (act : ℕ) (r : ℚ) (d : Bool) (ha : act < a.n_actions) :
    (store_episode a cs act r ns d).buffer.memory_buffer_action
        a.buffer.memory_buffer_pointer = (act : ℚ) ∧
      train_row_action (store_episode a cs act r ns d).buffer
        a.buffer.memory_buffer_pointer = act ∧
      (store_episode a cs act r ns d).buffer.memory_buffer_done
          a.buffer.memory_buffer_pointer = (if d = true then 1 else 0) := by
  have henc := store_encodes_at a.buffer ⟨cs, act, r, ns, d⟩
  simp only [store_episode]
  refine ⟨henc.2.2.1, ?_, ?_⟩
  · unfold train_row_action
    rw [henc.2.2.1, float_to_int_natCast]
    simp
  · rw [henc.2.2.2.2]
    cases d <;> simp [boolToFloat]

/-- Witness for C10: action 1 of 2 and a true done flag stored into the
test agent's buffer. -/
theorem action_done_roundtrip_witness :
    1 < testAgent.n_actions ∧
      train_row_action (store_episode testAgent 0 1 3 2 true).buffer
        testAgent.buffer.memory_buffer_pointer = 1 :=
  ⟨by decide,
    (action_done_roundtrip testAgent 0 2 1 3 true (by decide)).2.1⟩

/-- Claim C1, divergence exhibit (code bug): the agent built by
`run_sim_routine` is fresh, so its ε is 1.0, and since
`np.random.uniform(0,1)` always draws `u < 1`, `compute_action` always
returns the random action — evaluation does not act greedily. -/
theorem run_sim_agent_random_action {S : Type} (w : List ℚ)
    (action_size : ℕ) (w0 w0t : List ℚ) (ics ins : ℕ → S)
    (ia ir idn : ℕ → ℚ) (predict : List ℚ → S → List ℚ) (u : ℚ)
    (randA : ℕ) (s : S) (hu : u < 1) :
    (run_sim_agent w action_size w0 w0t ics ins ia ir idn).epsilon = 1 ∧
      (compute_action predict u randA
          (run_sim_agent w action_size w0 w0t ics ins ia ir idn) s).1 =
        randA := by
  refine ⟨rfl, ?_⟩
  simp [compute_action, run_sim_agent, load_model_weights, DDQNAgent.init, hu]

/-- Witness for C1's exhibit: with draw 1/2 the simulated agent takes the
random action 1 even though the online prediction `[9, 0]` has argmax 0. -/
theorem run_sim_agent_random_action_witness :
    ((1:ℚ)/2 < 1) ∧
      (compute_action (fun _ _ => [9, 0]) (1/2) 1
          (run_sim_agent [2] 2 [0] [0] (fun _ => (0:ℚ)) (fun _ => 0)
            (fun _ => 0) (fun _ => 0) (fun _ => 0)) 0).1 = 1 :=
  ⟨by norm_num,
    (run_sim_agent_random_action [2] 2 [0] [0] (fun _ => (0:ℚ))
      (fun _ => 0) (fun _ => 0) (fun _ => 0) (fun _ => 0)
      (fun _ _ => [9, 0]) (1/2) 1 0 (by norm_num)).2⟩

/-- C2 counterexample: `load_model_weights` does mutate the target
parameters θ⁻: loading weights `[1]` into the test agent (whose target
weights are `[3]`) changes the target network, refuting the claim that
every operation other than `update_q_target_network` leaves θ⁻ unchanged. -/
theorem load_model_weights_mutates_target :
    (load_model_weights [1] testAgent).q_target_model ≠
      testAgent.q_target_model := by
  norm_num [load_model_weights, testAgent, DDQNAgent.init]

/-- Claim C2 as amended: θ⁻ is mutated only by `update_q_target_network`
and `load_model_weights` (which copies the loaded weights into the target
network); `compute_action`, `store_episode`, `update_epsilon`, `train` and
`save_model_weights` leave θ⁻ unchanged, and `train` leaves the replay
buffer (arrays, write pointer, full flag) and ε unchanged, mutating only
the online parameters θ. -/
theorem target_and_train_frame {S : Type} (a : AgentState S)
    (predict : List ℚ → S → List ℚ)
    (fitW : List ℚ → List S → List (List ℚ) → List ℚ) (u : ℚ) (randA : ℕ)
    (s cs ns : S) (act : ℕ) (r : ℚ) (d : Bool) (draws : ℕ → ℕ)
    (batch_size : ℕ) :
    (compute_action predict u randA a s).2.q_target_model =
        a.q_target_model ∧
      (store_episode a cs act r ns d).q_target_model = a.q_target_model ∧
      (update_epsilon a).q_target_model = a.q_target_model ∧
      (train predict fitW draws batch_size a).q_target_model =
        a.q_target_model ∧
      (save_model_weights a).1.q_target_model = a.q_target_model ∧
      (train predict fitW draws batch_size a).buffer = a.buffer ∧
      (train predict fitW draws batch_size a).epsilon = a.epsilon :=
  ⟨rfl, rfl, rfl, rfl, rfl, rfl, rfl⟩

/-- Claim C6: the regression-target matrix `train` passes to `fit` holds,
for every sampled row, the online prediction for that row's state in every
column except the column of the action actually taken, which is replaced by
that row's Bellman target. -/
theorem fit_targets_masking {S : Type} (pred predT : S → List ℚ)
    (b : BufferState S) (idxs : List ℕ) (j i : ℕ)
    (hij : idxs[j]? = some i) :
    (train_fit_targets pred predT b idxs)[j]? =
      some ((pred (b.memory_buffer_current_state i)).set
        (train_row_action b i) (train_row_target predT b i)) ∧
    (∀ c, c ≠ train_row_action b i →
      ((pred (b.memory_buffer_current_state i)).set (train_row_action b i)
        (train_row_target predT b i))[c]? =
      (pred (b.memory_buffer_current_state i))[c]?) ∧
    (train_row_action b i <
        (pred (b.memory_buffer_current_state i)).length →
      ((pred (b.memory_buffer_current_state i)).set (train_row_action b i)
        (train_row_target predT b i))[train_row_action b i]? =
      some (train_row_target predT b i)) := by
  refine ⟨?_, ?_, ?_⟩
  · rw [train_fit_targets, List.getElem?_map, hij]
    rfl
  · intro c hc
    exact List.getElem?_set_ne hc.symm
  · intro hlt
    exact List.getElem?_set_eq_of_lt _ hlt

/-- Witness for C6: a one-index batch over `maskBuffer` (stored action 1);
column 0 of the fitted row keeps the online prediction value 10. -/
theorem fit_targets_masking_witness :
    (([0] : List ℕ)[0]? = some 0) ∧ (0 ≠ train_row_action maskBuffer 0) ∧
      (((fun _ : ℚ => [(10:ℚ), 20])
            (maskBuffer.memory_buffer_current_state 0)).set
          (train_row_action maskBuffer 0)
          (train_row_target (fun _ => [0]) maskBuffer 0))[0]? =
        ((fun _ : ℚ => [(10:ℚ), 20])
          (maskBuffer.memory_buffer_current_state 0))[0]? :=
  ⟨rfl, by norm_num [train_row_action, float_to_int, maskBuffer, freshBuffer],
    (fit_targets_masking (fun _ => [10, 20]) (fun _ => [0]) maskBuffer [0]
      0 0 rfl).2.1 0
      (by norm_num [train_row_action, float_to_int, maskBuffer, freshBuffer])⟩

lemma step_once_spec {S E : Type} (cfg : TrainConfig) (env : EnvModel S E)
    (o : Oracles S) (s : S) (rw : ℚ) (st : RunState S E) :
    (step_once cfg env o s rw st).1.reward_history = st.reward_history ∧
      (step_once cfg env o s rw st).1.success_history =
        st.success_history ∧
      (step_once cfg env o s rw st).1.saves = st.saves ∧
      (step_once cfg env o s rw st).1.stores = st.stores + 1 ∧
      (step_once cfg env o s rw st).1.total_steps = st.total_steps + 1 ∧
      ∀ n ∈ (step_once cfg env o s rw st).1.train_log,
        n ∈ st.train_log ∨
          (cfg.batch_size ≤ st.total_steps + 1 ∧ n = st.stores + 1) := by
  simp only [step_once]
  split_ifs <;>
  · refine ⟨rfl, rfl, rfl, rfl, rfl, ?_⟩
    intro n hn
    first
    | exact Or.inl hn
    | (simp only [List.mem_append, List.mem_singleton] at hn
       rcases hn with h | h
       · exact Or.inl h
       · have hgate : cfg.batch_size ≤ st.total_steps + 1 ∧
             (st.total_steps + 1) % cfg.q_network_update_freq = 0 := by
           assumption
         exact Or.inr ⟨hgate.1, h⟩)

lemma run_steps_frame {S E : Type} (cfg : TrainConfig) (env : EnvModel S E)
    (o : Oracles S) :
    ∀ (fuel : ℕ) (s : S) (rw : ℚ) (st : RunState S E),
      (run_steps cfg env o fuel s rw st).1.reward_history =
          st.reward_history ∧
        (run_steps cfg env o fuel s rw st).1.success_history =
          st.success_history ∧
        (run_steps cfg env o fuel s rw st).1.saves = st.saves := by
  intro fuel
  induction fuel with
  | zero => intro s rw st; exact ⟨rfl, rfl, rfl⟩
  | succ m ih =>
    intro s rw st
    have hspec := step_once_spec cfg env o s rw st
    simp only [run_steps]
    by_cases hd : (step_once cfg env o s rw st).2.2.2 = true
    · rw [if_pos hd]
      exact ⟨hspec.1, hspec.2.1, hspec.2.2.1⟩
    · rw [if_neg hd]
      have hih := ih (step_once cfg env o s rw st).2.1
        (step_once cfg env o s rw st).2.2.1 (step_once cfg env o s rw st).1
      exact ⟨hih.1.trans hspec.1, hih.2.1.trans hspec.2.1,
        hih.2.2.trans hspec.2.2.1⟩

lemma run_steps_gate {S E : Type} (cfg : TrainConfig) (env : EnvModel S E)
    (o : Oracles S) :
    ∀ (fuel : ℕ) (s : S) (rw : ℚ) (st : RunState S E),
      st.stores = st.total_steps →
      (∀ n ∈ st.train_log, cfg.batch_size ≤ n) →
      (run_steps cfg env o fuel s rw st).1.stores =
          (run_steps cfg env o fuel s rw st).1.total_steps ∧
        ∀ n ∈ (run_steps cfg env o fuel s rw st).1.train_log,
          cfg.batch_size ≤ n := by
  intro fuel
  induction fuel with
  | zero => intro s rw st h1 h2; exact ⟨h1, h2⟩
  | succ m ih =>
    intro s rw st h1 h2
    have hspec := step_once_spec cfg env o s rw st
    have hst1 : (step_once cfg env o s rw st).1.stores =
        (step_once cfg env o s rw st).1.total_steps := by
      rw [hspec.2.2.2.1, hspec.2.2.2.2.1, h1]
    have hlog : ∀ n ∈ (step_once cfg env o s rw st).1.train_log,
        cfg.batch_size ≤ n := by
      intro n hn
      rcases hspec.2.2.2.2.2 n hn with h | h
      · exact h2 n h
      · rw [h.2, h1]; exact h.1
    simp only [run_steps]
    by_cases hd : (step_once cfg env o s rw st).2.2.2 = true
    · rw [if_pos hd]
      exact ⟨hst1, hlog⟩
    · rw [if_neg hd]
      exact ih _ _ _ hst1 hlog

lemma episode_once_spec {S E : Type} (cfg : TrainConfig)
    (env : EnvModel S E) (o : Oracles S) (st : RunState S E) :
    (episode_once cfg env o st).saves = st.saves ∧
      (episode_once cfg env o st).reward_history.length =
        st.reward_history.length + 1 ∧
      (episode_once cfg env o st).success_history =
        st.success_history ++
          [(episode_once cfg env o st).successfull_episodes] := by
  have hfr := run_steps_frame cfg env o cfg.max_iterations_ep
    (env.reset st.env).1 0 { st with env := (env.reset st.env).2 }
  simp only [episode_once]
  refine ⟨?_, ?_, ?_⟩ <;> simp [hfr.1, hfr.2.1, hfr.2.2]

lemma episode_once_gate {S E : Type} (cfg : TrainConfig)
    (env : EnvModel S E) (o : Oracles S) (st : RunState S E)
    (h1 : st.stores = st.total_steps)
    (h2 : ∀ n ∈ st.train_log, cfg.batch_size ≤ n) :
    (episode_once cfg env o st).stores =
        (episode_once cfg env o st).total_steps ∧
      ∀ n ∈ (episode_once cfg env o st).train_log, cfg.batch_size ≤ n := by
  have hsg := run_steps_gate cfg env o cfg.max_iterations_ep
    (env.reset st.env).1 0 { st with env := (env.reset st.env).2 } h1 h2
  simp only [episode_once]
  exact ⟨hsg.1, hsg.2⟩

lemma run_episodes_gate {S E : Type} (cfg : TrainConfig) (env : EnvModel S E)
    (o : Oracles S) :
    ∀ (fuel : ℕ) (st : RunState S E),
      st.stores = st.total_steps →
      (∀ n ∈ st.train_log, cfg.batch_size ≤ n) →
      ∀ n ∈ (run_episodes cfg env o fuel st).train_log,
        cfg.batch_size ≤ n := by
  intro fuel
  induction fuel with
  | zero => intro st h1 h2 n hn; exact h2 n hn
  | succ m ih =>
    intro st h1 h2
    have hg := episode_once_gate cfg env o st h1 h2
    simp only [run_episodes]
    split
    · exact hg.2
    · exact ih _ hg.1 hg.2

/-- Claim C4: (a) whenever at least one transition has been stored, every
index drawn by `train`'s sampling step lies within the current valid range
(`[0, pointer)` while not full, `[0, C)` once full), so sampled batches
never contain an index of an uninitialized slot; and (b) in every training
run, the gating condition `total_steps ≥ batch_size` guarantees that at the
moment of each `train` call at least `batch_size` transitions have been
stored. -/
theorem sample_indices_valid_and_gated {S E : Type} :
    (∀ (b : BufferState S) (draws : ℕ → ℕ) (batch_size i : ℕ),
      b.memory_buffer_pointer ≤ b.memory_buffer_size →
      1 ≤ b.validSize →
      i ∈ train_indices b draws batch_size → i < b.validSize) ∧
    ∀ (cfg : TrainConfig) (env : EnvModel S E) (o : Oracles S) (e0 : E)
        (ag0 : AgentState S) (n : ℕ),
      n ∈ (run_training_routine cfg env o e0 ag0).train_log →
      cfg.batch_size ≤ n := by
  constructor
  · intro b draws batch_size i hp hv hi
    simp only [train_indices, List.mem_map, List.mem_range] at hi
    obtain ⟨j, hj, rfl⟩ := hi
    have hend : buffer_end_ptr b = b.validSize := by
      by_cases hb : b.buffer_full
      · simp [buffer_end_ptr, BufferState.validSize, hb]
      · simp [buffer_end_ptr, BufferState.validSize, hb, min_eq_left hp]
    rw [hend]
    exact Nat.mod_lt _ (lt_of_lt_of_le Nat.zero_lt_one hv)
  · intro cfg env o e0 ag0 n hn
    exact run_episodes_gate cfg env o cfg.n_episodes _ rfl
      (fun x hx => absurd hx (List.not_mem_nil x)) n hn

/-- Evaluation of the run under `gateConfig`: the single one-step episode
fires one `train` call, logged with one transition stored at that moment. -/
lemma gate_run_train_log :
    (run_training_routine gateConfig capEnv scenarioOracles ()
      scenarioAgent).train_log = [1] := by
  norm_num [run_training_routine, run_episodes, episode_once, run_steps,
    step_once, gateConfig, capEnv, scenarioOracles, scenarioAgent,
    DDQNAgent.init,
    compute_action, store_episode, update_epsilon, update_q_target_network,
    train, train_indices, train_fit_targets, train_row_action,
    train_row_target, buffer_end_ptr, freshBuffer, BufferState.store,
    writeAt, boolToFloat, memory_buffer_size, min_epsilon, epsilon_decay,
    gamma, tau, float_to_int, listMax]

/-- Witness for C4: a buffer holding one transition yields only index 0,
inside the valid range; and in the concrete `gateConfig` run the single
logged `train` call had `1 ≥ batch_size = 1` transitions stored. -/
theorem sample_indices_valid_and_gated_witness :
    (((freshBuffer 3 (fun _ => (0:ℚ)) (fun _ => 0) (fun _ => 0)
        (fun _ => 0) (fun _ => 0)).store
          ⟨0, 1, 5, 0, false⟩).memory_buffer_pointer ≤
        ((freshBuffer 3 (fun _ => (0:ℚ)) (fun _ => 0) (fun _ => 0)
          (fun _ => 0) (fun _ => 0)).store
            ⟨0, 1, 5, 0, false⟩).memory_buffer_size ∧
      1 ≤ ((freshBuffer 3 (fun _ => (0:ℚ)) (fun _ => 0) (fun _ => 0)
        (fun _ => 0) (fun _ => 0)).store ⟨0, 1, 5, 0, false⟩).validSize ∧
      0 ∈ train_indices ((freshBuffer 3 (fun _ => (0:ℚ)) (fun _ => 0)
        (fun _ => 0) (fun _ => 0) (fun _ => 0)).store ⟨0, 1, 5, 0, false⟩)
        (fun _ => 5) 2 ∧
      0 < ((freshBuffer 3 (fun _ => (0:ℚ)) (fun _ => 0) (fun _ => 0)
        (fun _ => 0) (fun _ => 0)).store ⟨0, 1, 5, 0, false⟩).validSize) ∧
      (1 ∈ (run_training_routine gateConfig capEnv scenarioOracles ()
          scenarioAgent).train_log ∧
        gateConfig.batch_size ≤ 1) :=
  ⟨⟨by decide, by decide, by decide,
      (sample_indices_valid_and_gated (S := ℚ) (E := Unit)).1
        ((freshBuffer 3 (fun _ => (0:ℚ)) (fun _ => 0) (fun _ => 0)
          (fun _ => 0) (fun _ => 0)).store ⟨0, 1, 5, 0, false⟩)
        (fun _ => 5) 2 0 (by decide) (by decide) (by decide)⟩,
    ⟨by rw [gate_run_train_log]; exact List.mem_singleton_self 1,
      (sample_indices_valid_and_gated (S := Unit) (E := Unit)).2 gateConfig
        capEnv scenarioOracles () scenarioAgent 1
        (by rw [gate_run_train_log]; exact List.mem_singleton_self 1)⟩⟩

lemma getD_append_left (l : List ℕ) (t : ℕ) (k : ℕ) (h : k < l.length) :
    (l ++ [t]).getD k 0 = l.getD k 0 := by
  simp only [List.getD]
  rw [List.get?_append h]

lemma getD_mem (l : List ℕ) (k : ℕ) (h : k < l.length) : l.getD k 0 ∈ l := by
  simp only [List.getD]
  rw [List.get?_eq_get h]
  simpa using List.get_mem l k h

lemma run_episodes_spec {S E : Type} (cfg : TrainConfig) (env : EnvModel S E)
    (o : Oracles S) :
    ∀ (fuel : ℕ) (st : RunState S E),
      st.saves = 0 →
      st.success_history.length = st.reward_history.length →
      (∀ c ∈ st.success_history, c < cfg.successfull_episodes_threshold) →
      (run_episodes cfg env o fuel st).saves = 1 ∧
        (run_episodes cfg env o fuel st).success_history.length =
          (run_episodes cfg env o fuel st).reward_history.length ∧
        st.reward_history.length ≤
          (run_episodes cfg env o fuel st).reward_history.length ∧
        (run_episodes cfg env o fuel st).reward_history.length ≤
          st.reward_history.length + fuel ∧
        (∀ k, k + 1 <
            (run_episodes cfg env o fuel st).success_history.length →
          (run_episodes cfg env o fuel st).success_history.getD k 0 <
            cfg.successfull_episodes_threshold) ∧
        ((run_episodes cfg env o fuel st).reward_history.length <
            st.reward_history.length + fuel →
          cfg.successfull_episodes_threshold ≤
            (run_episodes cfg env o fuel st).success_history.getLastD 0) := by
  intro fuel
  induction fuel with
  | zero =>
    intro st hs hl hc
    simp only [run_episodes]
    refine ⟨by rw [hs], hl, le_refl _, by omega, ?_, by omega⟩
    intro k hk
    exact hc _ (getD_mem _ _ (by omega))
  | succ m ih =>
    intro st hs hl hc
    have hep := episode_once_spec cfg env o st
    simp only [run_episodes]
    split
    next hth =>
      refine ⟨?_, ?_, ?_, ?_, ?_, ?_⟩
      · dsimp only
        rw [hep.1, hs]
      · dsimp only
        rw [hep.2.2, hep.2.1]
        simp [hl]
      · dsimp only
        rw [hep.2.1]
        omega
      · dsimp only
        rw [hep.2.1]
        omega
      · dsimp only
        intro k hk
        rw [hep.2.2] at hk ⊢
        simp only [List.length_append, List.length_singleton] at hk
        rw [getD_append_left _ _ _ (by omega)]
        exact hc _ (getD_mem _ _ (by omega))
      · dsimp only
        intro _
        rw [hep.2.2, List.getLastD_concat]
        exact hth
    next hth =>
      have hall : ∀ c ∈ (episode_once cfg env o st).success_history,
          c < cfg.successfull_episodes_threshold := by
        rw [hep.2.2]
        intro c hcm
        rcases List.mem_append.mp hcm with h | h
        · exact hc _ h
        · rw [List.mem_singleton.mp h]
          omega
      have hlen2 : (episode_once cfg env o st).success_history.length =
          (episode_once cfg env o st).reward_history.length := by
        rw [hep.2.2, hep.2.1]
        simp [hl]
      have hih := ih (episode_once cfg env o st) (hep.1.trans hs) hlen2 hall
      refine ⟨hih.1, hih.2.1, ?_, ?_, hih.2.2.2.2.1, ?_⟩
      · refine le_trans ?_ hih.2.2.1
        rw [hep.2.1]
        omega
      · refine le_trans hih.2.2.2.1 ?_
        rw [hep.2.1]
        omega
      · intro hlen
        refine hih.2.2.2.2.2 ?_
        rw [hep.2.1]
        omega

lemma run_one_done_episode {S E : Type} (cfg : TrainConfig)
    (env : EnvModel S E) (o : Oracles S) (e0 : E) (ag0 : AgentState S)
    (r : ℚ) (n m : ℕ) (hn : cfg.n_episodes = n + 1)
    (hm : cfg.max_iterations_ep = m + 1) (hbs : ¬ cfg.batch_size ≤ 1)
    (hthr : cfg.successfull_episodes_threshold = 1)
    (hd : ∀ e a, (env.step e a).2.2.1 = true)
    (hr : ∀ e a, (env.step e a).2.1 = r)
    (hsr : cfg.success_threshold ≤ r) :
    (run_training_routine cfg env o e0 ag0).reward_history = [r] ∧
      (run_training_routine cfg env o e0 ag0).saves = 1 := by
  simp [run_training_routine, run_episodes, episode_once, run_steps,
    step_once, hn, hm, hbs, hthr, hd, hr, hsr]

/-- Evaluation of the run under `capConfig`/`capEnv`: both one-step
episodes end by the step cap (never via `done`), so no success is ever
counted even though each episode's reward meets the threshold. -/
lemma cap_run_histories :
    (run_training_routine capConfig capEnv scenarioOracles ()
        scenarioAgent).reward_history = [1, 1] ∧
      (run_training_routine capConfig capEnv scenarioOracles ()
        scenarioAgent).success_history = [0, 0] := by
  norm_num [run_training_routine, run_episodes, episode_once, run_steps,
    step_once, capConfig, capEnv, scenarioOracles, scenarioAgent,
    DDQNAgent.init, compute_action, store_episode, update_epsilon,
    update_q_target_network, train, train_indices, train_fit_targets,
    train_row_action, train_row_target, buffer_end_ptr, freshBuffer,
    BufferState.store, writeAt, boolToFloat, memory_buffer_size,
    min_epsilon, epsilon_decay, gamma, tau, float_to_int, listMax]

/-- C9 counterexample: under `capConfig` (success threshold 1, success
count threshold 1, two one-step episodes) and `capEnv` (reward 1, never
done), episode 1's cumulative reward meets the success threshold, yet the
loop does not terminate after it: the returned reward history has two
entries, not one.  The code counts an episode as successful only inside
the `if done:` branch, so episodes ended by the step cap are never
counted. -/
theorem training_loop_misses_capped_success :
    capConfig.successfull_episodes_threshold = 1 ∧
      capConfig.success_threshold ≤
        (run_training_routine capConfig capEnv scenarioOracles ()
          scenarioAgent).reward_history.headD 0 ∧
      (run_training_routine capConfig capEnv scenarioOracles ()
        scenarioAgent).reward_history.length = 2 ∧
      (run_training_routine capConfig capEnv scenarioOracles ()
        scenarioAgent).reward_history.length ≠ 1 :=
  ⟨rfl, by rw [cap_run_histories.1]; norm_num [capConfig],
    by rw [cap_run_histories.1]; rfl,
    by rw [cap_run_histories.1]; decide⟩

/-- Claim C9 as amended: in every run weights are persisted exactly once
and at most `n_episodes` episodes run; the loop terminates at the end of
the first episode at which the count of successful episodes — episodes
that end with `done = true` and cumulative reward ≥ the success threshold
— reaches the configured threshold: the recorded count is below the
threshold after every episode but the last, and if the loop stopped before
exhausting `n_episodes` the final count reached the threshold.  In
particular, with `successfull_episodes_threshold = 1` and an environment
yielding reward 1000 and `done = true` on the first step of every episode,
the loop terminates after exactly one episode with total reward 1000 and
weights persisted exactly once. -/
theorem training_loop_early_termination {S E : Type} (cfg : TrainConfig)
    (env : EnvModel S E) (o : Oracles S) (e0 : E) (ag0 : AgentState S) :
    ((run_training_routine cfg env o e0 ag0).saves = 1 ∧
      (run_training_routine cfg env o e0 ag0).success_history.length =
        (run_training_routine cfg env o e0 ag0).reward_history.length ∧
      (run_training_routine cfg env o e0 ag0).reward_history.length ≤
        cfg.n_episodes ∧
      (∀ k, k + 1 <
          (run_training_routine cfg env o e0 ag0).success_history.length →
        (run_training_routine cfg env o e0 ag0).success_history.getD k 0 <
          cfg.successfull_episodes_threshold) ∧
      ((run_training_routine cfg env o e0 ag0).reward_history.length <
          cfg.n_episodes →
        cfg.successfull_episodes_threshold ≤
          (run_training_routine cfg env o e0
            ag0).success_history.getLastD 0)) ∧
    ((run_training_routine scenarioConfig scenarioEnv scenarioOracles ()
        scenarioAgent).reward_history = [1000] ∧
      (run_training_routine scenarioConfig scenarioEnv scenarioOracles ()
        scenarioAgent).saves = 1) := by
  constructor
  · have h := run_episodes_spec cfg env o cfg.n_episodes
      { agent := ag0, env := e0, total_steps := 0, stores := 0,
        train_log := [], successfull_episodes := 0, success_history := [],
        reward_history := [], saves := 0 } rfl rfl
      (by intro c hc; simp at hc)
    exact ⟨h.1, h.2.1, by simpa using h.2.2.2.1, h.2.2.2.2.1,
      by simpa using h.2.2.2.2.2⟩
  · exact run_one_done_episode scenarioConfig scenarioEnv scenarioOracles
      () scenarioAgent 1000 74 399 rfl rfl (by decide) rfl
      (fun e a => rfl) (fun e a => rfl)
      (by norm_num [scenarioConfig, defaultConfig])

/-- Witness for C9's amended theorem at the `capConfig` run: weights saved
once, and the success count recorded after the non-final episode is below
the threshold. -/
theorem training_loop_early_termination_witness :
    (run_training_routine capConfig capEnv scenarioOracles ()
        scenarioAgent).saves = 1 ∧
      (run_training_routine capConfig capEnv scenarioOracles ()
        scenarioAgent).success_history.getD 0 0 <
        capConfig.successfull_episodes_threshold :=
  ⟨(training_loop_early_termination capConfig capEnv scenarioOracles ()
      scenarioAgent).1.1,
    (training_loop_early_termination capConfig capEnv scenarioOracles ()
      scenarioAgent).1.2.2.2.1 0
      (by rw [cap_run_histories.2]; decide)⟩

end TfDdqnCartpole
